import Mathlib

/-!
# bangun: the Debian build job orchestrator

A shallow embedding of `internal/build/usecase/build.go`.

The two source functions, `Build` and `runContainer`, talk to four
collaborators: the git client, the Docker engine, the operating system's file
system and the process log.  The embedding makes them explicit:

* `World` scripts every answer a collaborator can give (the UUID drawn, whether
  the clone fails, what the engine returns for create/start/logs/wait, what a
  file write returns);
* every call the code issues is recorded, in program order, as an `Event`;
* the file system is a finite map from paths to byte contents.

Go strings are Lean `String`s, Go byte slices are lists of naturals below 256,
a Go `error` is `Option GoError` with `none` for `nil`.
-/

namespace Bangun

/-! ## Data model -/

/-- A Go error value, identified by its message. -/
abbrev GoError := String

/-- A Go byte slice. -/
abbrev Bytes := List Nat

/-- The file system: path to contents, `none` where no file exists. -/
abbrev Files := String → Option Bytes

/-- Source `DebianBuildRequest`. -/
structure DebianBuildRequest where
  Distro : String
  Arch : String
  GitURL : String
  deriving DecidableEq

/-- Source `DebianBuildResult`. -/
structure DebianBuildResult where
  Log : String
  deriving DecidableEq

/-- Docker `mount.Mount`, the four fields the source sets (`Type_` is the field
`Type`). -/
structure Mount where
  Type_ : String
  Source : String
  Target : String
  ReadOnly : Bool
  deriving DecidableEq

/-- Docker `mount.TypeBind`. -/
def TypeBind : String := "bind"

/-- Docker `container.RestartPolicy`. -/
structure RestartPolicy where
  Name : String
  deriving DecidableEq

/-- Docker `container.LogConfig` (`Type_` is the field `Type`); the map is an
association list. -/
structure LogConfig where
  Type_ : String
  Config : List (String × String)
  deriving DecidableEq

/-- Docker `container.HostConfig`, the fields the source sets. -/
structure HostConfig where
  Privileged : Bool
  RestartPolicy : RestartPolicy
  LogConfig : LogConfig
  Mounts : List Mount
  deriving DecidableEq

/-- Docker `network.EndpointSettings`. -/
structure EndpointSettings where
  Gateway : String
  deriving DecidableEq

/-- Docker `network.NetworkingConfig`; the map is an association list. -/
structure NetworkingConfig where
  EndpointsConfig : List (String × EndpointSettings)
  deriving DecidableEq

/-- Docker `container.Config`, the fields the source sets. -/
structure Config where
  Image : String
  Env : List String
  Hostname : String
  Cmd : List String
  deriving DecidableEq

/-- Docker `container.LogsOptions`, the fields the source sets. -/
structure LogsOptions where
  ShowStdout : Bool
  Follow : Bool
  deriving DecidableEq

/-- Docker `container.WaitResponse`. -/
structure WaitResponse where
  StatusCode : Int
  Error : Option String
  deriving DecidableEq

/-- What the `select` over the two channels of `ContainerWait` receives. -/
inductive WaitOutcome where
  | err (e : GoError)
  | res (r : WaitResponse)
  deriving DecidableEq

/-- The `io.ReadCloser` returned by `ContainerLogs`: successive `Read` calls
return the chunks in order, then `io.EOF` (`final = none`) or a read error. -/
structure LogReader where
  chunks : List Bytes
  final : Option GoError
  deriving DecidableEq

/-- The bytes a log stream emits before it ends. -/
def LogReader.emitted (r : LogReader) : Bytes := r.chunks.flatten

/-- The 16-byte value of `uuid.UUID`. -/
structure UUID where
  bytes : List Nat
  size_eq : bytes.length = 16
  byte_lt : ∀ b ∈ bytes, b < 256

/-- Calls the code issues to its collaborators, in program order.  An event
stands for the completed call; `ioCopy` carries what `io.Copy` returned and
`containerWait` what the `select` received. -/
inductive Event where
  | gitPlainClone (path : String) (url : String)
  | fmtPrintln (e : GoError)
  | newEnvClient
  | logFatalf (msg : String)
  | osMkdirAll (path : String)
  | containerCreate (config : Config) (hostConfig : HostConfig)
      (networkingConfig : NetworkingConfig) (containerName : String)
  | containerStart (containerID : String)
  | logPrintf (msg : String)
  | containerLogs (containerID : String) (options : LogsOptions)
  | osCreate (path : String)
  | ioCopy (dst : String) (written : Nat) (err : Option GoError)
  | containerWait (containerID : String) (condition : String) (received : WaitOutcome)
  | logPrintlnErr (e : GoError)
  | logPrintlnRes (r : WaitResponse)
  | fileClose (path : String)
  deriving DecidableEq

/-- The scripted collaborators.  `Sprintf` is `fmt.Sprintf` applied to a format
string and no operands, library code taken as a parameter; `fileWrite path
content chunk` is what `(*os.File).Write` returns, bytes written and error, when
`chunk` is written to the file at `path` currently holding `content`. -/
structure World where
  uuidNew : UUID
  gitPlainClone : String → String → Option GoError
  newEnvClient : Option GoError
  osMkdirAll : String → Option GoError
  containerCreate : Config → HostConfig → NetworkingConfig → String → Except GoError String
  containerStart : String → Option GoError
  containerLogs : String → LogsOptions → Except GoError LogReader
  osCreate : String → Option GoError
  fileWrite : String → Bytes → Bytes → Nat × Option GoError
  containerWait : String → String → WaitOutcome
  Sprintf : String → String

/-- How a call of `Build` ends: it returns its pair, or `log.Fatalf` ends the
process. -/
inductive BuildOutcome where
  | returned (result : DebianBuildResult) (err : Option GoError)
  | exited (msg : String)
  deriving DecidableEq

/-! ## Library functions used by the source -/

/-- The table of `encoding/hex`. -/
def hextable : List Char := "0123456789abcdef".toList

/-- Go `hex.Encode`: two digits per byte, high nibble first
(`hextable[v>>4]`, `hextable[v&0x0f]`). -/
def hexEncode : List Nat → List Char
  | [] => []
  | v :: vs => hextable.getD (v / 16) '0' :: hextable.getD (v % 16) '0' :: hexEncode vs

/-- Library `github.com/google/uuid`, method `UUID.String`: its `encodeHex` writes
the sixteen bytes in hexadecimal, in groups of 4, 2, 2, 2 and 6 bytes separated
by `-` (the form 8-4-4-4-12). -/
def UUID.String (u : UUID) : String :=
  String.mk (hexEncode (u.bytes.take 4) ++ '-' :: hexEncode ((u.bytes.drop 4).take 2)
    ++ '-' :: hexEncode ((u.bytes.drop 6).take 2)
    ++ '-' :: hexEncode ((u.bytes.drop 8).take 2)
    ++ '-' :: hexEncode (u.bytes.drop 10))

/-- Go `strings.Replace(s, old, new, -1)` for a one-character `old`: every
occurrence of `old` is replaced by `new`. -/
def stringsReplace (s : String) (old : Char) (new : String) : String :=
  String.mk (s.data.flatMap fun c => if c = old then new.data else [c])

/-- Writes `v` at `path`, leaving every other file as it is. -/
def Files.set (fs : Files) (path : String) (v : Bytes) : Files :=
  fun p => if p = path then some v else fs p

/-- Go `errInvalidWrite` of package `io`. -/
def errInvalidWrite : GoError := "invalid write result"

/-- Go `io.ErrShortWrite`. -/
def ErrShortWrite : GoError := "short write"

/-- The loop of Go `io.Copy` from a log reader into the file at `dst`, whose
`Write` method is `write content chunk`: each chunk read is written; a write
error or a short write ends the copy with that error; after the last chunk the
reader's final answer ends it, `io.EOF` being success.  Returns the file system,
the bytes written and the error. -/
def ioCopyLoop (write : Bytes → Bytes → Nat × Option GoError) (dst : String)
    (final : Option GoError) : List Bytes → Files → Nat → Files × Nat × Option GoError
  | [], fs, written => (fs, written, final)
  | buf :: rest, fs, written =>
    if 0 < buf.length then
      let content := (fs dst).getD []
      let r := write content buf
      let bad := decide (buf.length < r.1)
      let nw := if bad then 0 else r.1
      let ew := if bad then (if r.2 = none then some errInvalidWrite else r.2) else r.2
      let fs1 := fs.set dst (content ++ buf.take r.1)
      let written1 := written + nw
      match ew with
      | some e => (fs1, written1, some e)
      | none =>
        if buf.length ≠ nw then (fs1, written1, some ErrShortWrite)
        else ioCopyLoop write dst final rest fs1 written1
    else ioCopyLoop write dst final rest fs written

/-- Go `io.Copy(logFile, logRC)`. -/
def ioCopy (w : World) (dst : String) (src : LogReader) (fs : Files) :
    Files × Nat × Option GoError :=
  ioCopyLoop (w.fileWrite dst) dst src.final src.chunks fs 0

/-! ## The source functions -/

/-- Prepends the events issued so far to the rest of a run. -/
def emit {α : Type} (es : List Event) (r : List Event × α) : List Event × α :=
  (es ++ r.1, r.2)

/-- Source `runContainer`.  The result is the events issued, the file system
left behind and the error returned (`none` for `nil`).  The constant arguments
`context.Background()` and `&imagespec.Platform{}` are left out of the events;
`port` is unused, as in the source. -/
def runContainer (w : World) (fs : Files) (jobID imagename containername port : String)
    (inputEnv : List String) (resultPath : String) :
    List Event × Files × Option GoError :=
  let hostConfig0 : HostConfig :=
    { Privileged := true
      RestartPolicy := { Name := "no" }
      LogConfig := { Type_ := "json-file", Config := [] }
      Mounts := [] }
  let networkConfig : NetworkingConfig :=
    { EndpointsConfig := [("bridge", { Gateway := "172.17.0.1" })] }
  let config0 : Config :=
    { Image := imagename
      Env := inputEnv
      Hostname := imagename ++ "-hostnameexample"
      Cmd := [] }
  let repoMount : Mount :=
    { Type_ := TypeBind, Source := "/tmp/bangun/builds/" ++ jobID, Target := "/src",
      ReadOnly := false }
  let scriptMount : Mount :=
    { Type_ := TypeBind, Source := "/media/homelab/src/bangun/scripts", Target := "/scripts",
      ReadOnly := false }
  emit [Event.osMkdirAll resultPath] <|
  match w.osMkdirAll resultPath with
  | some err => ([Event.logPrintlnErr err], fs, some err)
  | none =>
    let resultMount : Mount :=
      { Type_ := TypeBind, Source := resultPath, Target := "/result", ReadOnly := false }
    let hostConfig : HostConfig := { hostConfig0 with Mounts := [repoMount, scriptMount, resultMount] }
    let config : Config :=
      { config0 with Cmd := ["/bin/bash", "-c", "cd /src && /scripts/debian-build.sh"] }
    emit [Event.containerCreate config hostConfig networkConfig containername] <|
    match w.containerCreate config hostConfig networkConfig containername with
    | Except.error err => ([Event.logPrintlnErr err], fs, some err)
    | Except.ok contID =>
      -- the value returned by `ContainerStart` is discarded
      let _started := w.containerStart contID
      emit [Event.containerStart contID,
            Event.logPrintf ("Container " ++ contID ++ " is created"),
            Event.containerLogs contID { ShowStdout := true, Follow := true }] <|
      match w.containerLogs contID { ShowStdout := true, Follow := true } with
      | Except.error err => ([Event.logPrintlnErr err], fs, some err)
      | Except.ok logRC =>
        let logPath := w.Sprintf (resultPath ++ "/log.txt")
        emit [Event.osCreate logPath] <|
        match w.osCreate logPath with
        | some err => ([Event.logPrintlnErr err], fs, some err)
        | none =>
          let fs1 := fs.set logPath []
          let copied := ioCopy w logPath logRC fs1
          emit [Event.ioCopy logPath copied.2.1 copied.2.2] <|
          match copied.2.2 with
          | some err =>
            ([Event.logPrintlnErr err, Event.fileClose logPath], copied.1, some err)
          | none =>
            match w.containerWait containername "" with
            | WaitOutcome.err e =>
              ([Event.containerWait containername "" (WaitOutcome.err e),
                Event.logPrintlnErr e, Event.fileClose logPath], copied.1, none)
            | WaitOutcome.res r =>
              ([Event.containerWait containername "" (WaitOutcome.res r),
                Event.logPrintlnRes r, Event.fileClose logPath], copied.1, none)

/-- The job ID of `Build`: `strings.Replace(uuid.New().String(), "-", "", -1)`. -/
def jobIDOf (u : UUID) : String := stringsReplace u.String '-' ""

/-- The workspace path of a job, the clone destination in `Build`. -/
def workspacePath (jobID : String) : String := "/tmp/bangun/builds/" ++ jobID

/-- The container name of a job, `containername` in `Build`. -/
def containerName (jobID : String) : String := "bangun-build-" ++ jobID

/-- The result directory of a job, `resultPath` in `Build`. -/
def resultPathOf (jobID distro : String) : String :=
  "/media/homelab/src/bangun/results/" ++ jobID ++ "/" ++ distro

/-- Source `debianBuildUsecase.Build`, run on the file system `fs`.  The result
is the events issued, the file system left behind and how the call ended. -/
def Build (w : World) (fs : Files) (req : DebianBuildRequest) :
    List Event × Files × BuildOutcome :=
  let jobID := jobIDOf w.uuidNew
  emit [Event.gitPlainClone (workspacePath jobID) req.GitURL] <|
  match w.gitPlainClone (workspacePath jobID) req.GitURL with
  | some err => ([Event.fmtPrintln err], fs, BuildOutcome.returned { Log := "" } (some err))
  | none =>
    emit [Event.newEnvClient] <|
    match w.newEnvClient with
    | some err =>
      ([Event.logFatalf ("Unable to create docker client: " ++ err)], fs,
        BuildOutcome.exited ("Unable to create docker client: " ++ err))
    | none =>
      let imagename := "herpiko/pbocker-" ++ req.Distro
      let containername := containerName jobID
      let portopening := "8080"
      let inputEnv := ["LISTENINGPORT=" ++ portopening]
      let resultPath := resultPathOf jobID req.Distro
      let ran := runContainer w fs jobID imagename containername portopening inputEnv resultPath
      match ran.2.2 with
      | some err => (ran.1 ++ [Event.logPrintlnErr err], ran.2.1, BuildOutcome.returned { Log := "" } none)
      | none => (ran.1, ran.2.1, BuildOutcome.returned { Log := "" } none)

/-! ## Reading a trace -/

/-- Recognises `os.MkdirAll`. -/
def Event.isMkdirAll : Event → Bool
  | Event.osMkdirAll _ => true
  | _ => false

/-- Recognises the engine's create call. -/
def Event.isCreate : Event → Bool
  | Event.containerCreate _ _ _ _ => true
  | _ => false

/-- Recognises the engine's start call. -/
def Event.isStart : Event → Bool
  | Event.containerStart _ => true
  | _ => false

/-- Recognises the engine's log-stream call. -/
def Event.isLogs : Event → Bool
  | Event.containerLogs _ _ => true
  | _ => false

/-- Recognises the creation of a file. -/
def Event.isOsCreate : Event → Bool
  | Event.osCreate _ => true
  | _ => false

/-- Recognises a run of `io.Copy`. -/
def Event.isCopy : Event → Bool
  | Event.ioCopy _ _ _ => true
  | _ => false

/-- Recognises the engine's wait call. -/
def Event.isWait : Event → Bool
  | Event.containerWait _ _ _ => true
  | _ => false

/-- The clone destinations in a trace: the workspace paths used. -/
def workspacePaths (t : List Event) : List String :=
  t.filterMap fun ev => match ev with
    | Event.gitPlainClone p _ => some p
    | _ => none

/-- The names under which containers are created in a trace. -/
def containerNames (t : List Event) : List String :=
  t.filterMap fun ev => match ev with
    | Event.containerCreate _ _ _ n => some n
    | _ => none

/-- The directories made in a trace: the result directories used. -/
def resultDirs (t : List Event) : List String :=
  t.filterMap fun ev => match ev with
    | Event.osMkdirAll p => some p
    | _ => none

/-- The triple (workspace paths, container names, result directories) a trace
uses. -/
def jobTriple (t : List Event) : List String × List String × List String :=
  (workspacePaths t, containerNames t, resultDirs t)

/-- The `config` that `runContainer` hands to `ContainerCreate`: build.go
lines 108 to 112 with the `Cmd` of line 146. -/
def createConfig (imagename : String) (inputEnv : List String) : Config :=
  { Image := imagename
    Env := inputEnv
    Hostname := imagename ++ "-hostnameexample"
    Cmd := ["/bin/bash", "-c", "cd /src && /scripts/debian-build.sh"] }

/-- The `hostConfig` that `runContainer` hands to `ContainerCreate`: build.go
lines 85 to 94 with the `Mounts` of line 142. -/
def createHostConfig (jobID resultPath : String) : HostConfig :=
  { Privileged := true
    RestartPolicy := { Name := "no" }
    LogConfig := { Type_ := "json-file", Config := [] }
    Mounts :=
      [{ Type_ := TypeBind, Source := "/tmp/bangun/builds/" ++ jobID, Target := "/src",
         ReadOnly := false },
       { Type_ := TypeBind, Source := "/media/homelab/src/bangun/scripts", Target := "/scripts",
         ReadOnly := false },
       { Type_ := TypeBind, Source := resultPath, Target := "/result", ReadOnly := false }] }

/-- The `networkConfig` that `runContainer` hands to `ContainerCreate`: build.go
lines 98 to 104. -/
def createNetworkingConfig : NetworkingConfig :=
  { EndpointsConfig := [("bridge", { Gateway := "172.17.0.1" })] }

/-- What `runContainer` prints after its `select`: the error received from the
error channel or the response received from the result channel (build.go lines
199 to 204). -/
def waitLogged : WaitOutcome → Event
  | WaitOutcome.err e => Event.logPrintlnErr e
  | WaitOutcome.res r => Event.logPrintlnRes r

/-- The options `runContainer` hands to `ContainerLogs`: build.go lines 168 to
171. -/
def logsOptions : LogsOptions := { ShowStdout := true, Follow := true }

/-- The path `runContainer` hands to `os.Create`: build.go line 185. -/
def logPathOf (w : World) (resultPath : String) : String :=
  w.Sprintf (resultPath ++ "/log.txt")

/-- The run of `io.Copy` in `runContainer`: the reader `rd` is copied into the
log file just created empty on the file system `fs`: build.go lines 185 to 191. -/
def logCopy (w : World) (fs : Files) (resultPath : String) (rd : LogReader) :
    Files × Nat × Option GoError :=
  ioCopy w (logPathOf w resultPath) rd (fs.set (logPathOf w resultPath) [])

/-! ## Fixtures: concrete collaborators -/

/-- A sample UUID, bytes 0x00 to 0x0f scaled by 0x11. -/
def sampleUUID : UUID :=
  ⟨[0, 17, 34, 51, 68, 85, 102, 119, 136, 153, 170, 187, 204, 221, 238, 255], by decide,
    by decide⟩

/-- A second sample UUID, differing from `sampleUUID` in its last byte. -/
def otherUUID : UUID :=
  ⟨[0, 17, 34, 51, 68, 85, 102, 119, 136, 153, 170, 187, 204, 221, 238, 254], by decide,
    by decide⟩

/-- The bytes of `"build ok\n"`. -/
def buildOk : Bytes := [98, 117, 105, 108, 100, 32, 111, 107, 10]

/-- The request of `cmd/main.go`. -/
def mainRequest : DebianBuildRequest :=
  { Distro := "noble", Arch := "amd64", GitURL := "https://github.com/herpiko/cubetimer.git" }

/-- The empty file system. -/
def noFiles : Files := fun _ => none

/-- A stub world in which every collaborator succeeds: the engine creates the
container `c0ffee`, its log stream emits `"build ok\n"` and ends, and it
reports exit code zero.  Its `Sprintf` returns the format unchanged, which is
what `fmt.Sprintf` does on the formats without `%` used below. -/
def stubWorld : World where
  uuidNew := sampleUUID
  gitPlainClone := fun _ _ => none
  newEnvClient := none
  osMkdirAll := fun _ => none
  containerCreate := fun _ _ _ _ => Except.ok "c0ffee"
  containerStart := fun _ => none
  containerLogs := fun _ _ => Except.ok { chunks := [buildOk], final := none }
  osCreate := fun _ => none
  fileWrite := fun _ _ chunk => (chunk.length, none)
  containerWait := fun _ _ => WaitOutcome.res { StatusCode := 0, Error := none }
  Sprintf := fun format => format

/-- The stub world with a repository that cannot be fetched. -/
def fetchFailsWorld : World :=
  { stubWorld with gitPlainClone := fun _ _ => some "repository not found" }

/-- The stub world with an engine whose create call fails. -/
def createFailsWorld : World :=
  { stubWorld with containerCreate := fun _ _ _ _ => Except.error "No such image" }

/-- The stub world with an engine whose start call fails. -/
def startFailsWorld : World :=
  { stubWorld with containerStart := fun _ => some "cannot start container" }

/-- The stub world with a log stream that breaks after `"build ok\\n"`. -/
def streamBreaksWorld : World :=
  { stubWorld with
    containerLogs := fun _ _ => Except.ok { chunks := [buildOk], final := some "unexpected EOF" } }

/-- The same build as `mainRequest`, for another architecture and from another
repository. -/
def armRequest : DebianBuildRequest :=
  { Distro := "noble", Arch := "arm64", GitURL := "https://example.org/hello.git" }

/-- A request whose distro holds a formatting verb. -/
def percentRequest : DebianBuildRequest :=
  { Distro := "%d", Arch := "amd64", GitURL := "https://github.com/herpiko/cubetimer.git" }

/-- The stub world seen by `percentRequest`: `fmt.Sprintf` without operands
renders the verb `%d` as `%!d(MISSING)`, and no directory of that name exists,
so the log file cannot be created there. -/
def percentWorld : World :=
  { stubWorld with
    Sprintf := fun format =>
      if format =
          "/media/homelab/src/bangun/results/00112233445566778899aabbccddeeff/%d/log.txt" then
        "/media/homelab/src/bangun/results/00112233445566778899aabbccddeeff/%!d(MISSING)/log.txt"
      else format
    osCreate := fun path =>
      if path =
          "/media/homelab/src/bangun/results/00112233445566778899aabbccddeeff/%!d(MISSING)/log.txt"
      then some "no such file or directory" else none }

/-- The call of `runContainer` that `Build` makes for `mainRequest` under the
job ID of `sampleUUID`, in the world `w` on the empty file system. -/
def sampleRun (w : World) : List Event × Files × Option GoError :=
  runContainer w noFiles (jobIDOf sampleUUID) "herpiko/pbocker-noble"
    (containerName (jobIDOf sampleUUID)) "8080" ["LISTENINGPORT=8080"]
    (resultPathOf (jobIDOf sampleUUID) "noble")

/-- The log path of `sampleRun`. -/
def sampleLogPath : String :=
  "/media/homelab/src/bangun/results/00112233445566778899aabbccddeeff/noble/log.txt"

/-! ## Job identity: shape and injectivity -/

theorem hextable_getD_mem (n : Nat) : hextable.getD n '0' ∈ hextable := by
  by_cases h : n < 16
  · revert n; decide
  · have hlen : hextable.length ≤ n := by
      have : hextable.length = 16 := by decide
      omega
    rw [List.getD_eq_default _ _ hlen]
    decide

theorem hextable_getD_inj : ∀ a, a < 16 → ∀ b, b < 16 →
    hextable.getD a '0' = hextable.getD b '0' → a = b := by
  decide

theorem hexEncode_append (a b : List Nat) :
    hexEncode (a ++ b) = hexEncode a ++ hexEncode b := by
  induction a with
  | nil => rfl
  | cons v vs ih => simp [hexEncode, ih]

theorem hexEncode_length (l : List Nat) : (hexEncode l).length = 2 * l.length := by
  induction l with
  | nil => rfl
  | cons v vs ih => simp [hexEncode, ih]; omega

theorem hexEncode_mem (l : List Nat) : ∀ c ∈ hexEncode l, c ∈ hextable := by
  induction l with
  | nil => intro c hc; simp [hexEncode] at hc
  | cons v vs ih =>
    intro c hc
    simp only [hexEncode, List.mem_cons] at hc
    rcases hc with h | h | h
    · rw [h]; exact hextable_getD_mem _
    · rw [h]; exact hextable_getD_mem _
    · exact ih c h

theorem hexEncode_inj : ∀ (a b : List Nat), (∀ v ∈ a, v < 256) → (∀ v ∈ b, v < 256) →
    hexEncode a = hexEncode b → a = b := by
  intro a
  induction a with
  | nil =>
    intro b _ _ h
    cases b with
    | nil => rfl
    | cons v vs => simp [hexEncode] at h
  | cons x xs ih =>
    intro b ha hb h
    cases b with
    | nil => simp [hexEncode] at h
    | cons y ys =>
      simp only [hexEncode, List.cons.injEq] at h
      obtain ⟨h1, h2, h3⟩ := h
      have hx : x < 256 := ha x (List.mem_cons_self _ _)
      have hy : y < 256 := hb y (List.mem_cons_self _ _)
      have e1 := hextable_getD_inj (x / 16) (by omega) (y / 16) (by omega) h1
      have e2 := hextable_getD_inj (x % 16) (Nat.mod_lt _ (by decide)) (y % 16)
        (Nat.mod_lt _ (by decide)) h2
      have hxy : x = y := by omega
      have hrest := ih ys (fun v hv => ha v (List.mem_cons_of_mem _ hv))
        (fun v hv => hb v (List.mem_cons_of_mem _ hv)) h3
      rw [hxy, hrest]

/-- Replacing a character that does not occur changes nothing. -/
theorem flatMap_replace_absent (old : Char) (new : List Char) (l : List Char)
    (h : old ∉ l) : (l.flatMap fun c => if c = old then new else [c]) = l := by
  induction l with
  | nil => rfl
  | cons c cs ih =>
    have hc : c ≠ old := fun e => h (e ▸ List.mem_cons_self _ _)
    have hcs : old ∉ cs := fun m => h (List.mem_cons_of_mem _ m)
    simp [List.flatMap_cons, hc, ih hcs]

theorem dash_not_mem_hexEncode (l : List Nat) : '-' ∉ hexEncode l := by
  intro h
  have := hexEncode_mem l _ h
  revert this
  decide

/-- The job ID is the hexadecimal encoding of the sixteen bytes. -/
theorem jobIDOf_eq_hex (u : UUID) : jobIDOf u = String.mk (hexEncode u.bytes) := by
  have hsplit : u.bytes = u.bytes.take 4 ++ ((u.bytes.drop 4).take 2 ++ ((u.bytes.drop 6).take 2
      ++ ((u.bytes.drop 8).take 2 ++ u.bytes.drop 10))) := by
    have h1 := List.take_append_drop 4 u.bytes
    have h2 := List.take_append_drop 2 (u.bytes.drop 4)
    have h3 := List.take_append_drop 2 (u.bytes.drop 6)
    have h4 := List.take_append_drop 2 (u.bytes.drop 8)
    simp only [List.drop_drop] at h2 h3 h4
    norm_num at h2 h3 h4
    rw [h4, h3, h2, h1]
  have hd := fun l => flatMap_replace_absent '-' [] (hexEncode l) (dash_not_mem_hexEncode l)
  apply String.ext
  simp only [jobIDOf, stringsReplace, UUID.String]
  conv_rhs => rw [hsplit]
  simp only [hexEncode_append, List.flatMap_append, List.flatMap_cons, hd]
  simp

theorem jobIDOf_data (u : UUID) : (jobIDOf u).data = hexEncode u.bytes := by
  rw [jobIDOf_eq_hex]

theorem jobIDOf_length (u : UUID) : (jobIDOf u).length = 32 := by
  rw [String.length, jobIDOf_data, hexEncode_length, u.size_eq]

theorem jobIDOf_inj (u1 u2 : UUID) (h : jobIDOf u1 = jobIDOf u2) : u1 = u2 := by
  have hd : hexEncode u1.bytes = hexEncode u2.bytes := by
    rw [← jobIDOf_data, ← jobIDOf_data, h]
  have hb := hexEncode_inj _ _ u1.byte_lt u2.byte_lt hd
  cases u1; cases u2; simp only [UUID.mk.injEq]; exact hb

/-- Appending to a fixed prefix is injective on strings. -/
theorem append_left_cancel_string (p a b : String) (h : p ++ a = p ++ b) : a = b := by
  have hd := congrArg String.data h
  simp only [String.data_append, List.append_cancel_left_eq] at hd
  exact String.ext hd

/-- C5: for every UUID value, the job ID `Build` derives from it (the canonical
string with every `-` removed) has exactly 32 characters, each one of
`0123456789abcdef`, and contains neither `-` nor `/`. -/
theorem C5_jobID_bare_alphanumeric (u : UUID) :
    jobIDOf u = stringsReplace u.String '-' "" ∧
    (jobIDOf u).length = 32 ∧
    (∀ c ∈ (jobIDOf u).toList, c ∈ "0123456789abcdef".toList) ∧
    '-' ∉ (jobIDOf u).toList ∧ '/' ∉ (jobIDOf u).toList := by
  have hmem : ∀ c ∈ (jobIDOf u).toList, c ∈ hextable := by
    intro c hc
    rw [String.toList, jobIDOf_data] at hc
    exact hexEncode_mem _ c hc
  refine ⟨rfl, jobIDOf_length u, hmem, ?_, ?_⟩
  · intro h
    have := hmem _ h
    revert this
    decide
  · intro h
    have := hmem _ h
    revert this
    decide

/-- C10: two distinct UUID values give distinct job IDs, distinct workspace
paths, distinct container names and, whatever the two distro strings are,
distinct result paths. -/
theorem C10_names_never_collide (u1 u2 : UUID) (d1 d2 : String) (h : u1 ≠ u2) :
    jobIDOf u1 ≠ jobIDOf u2 ∧
    workspacePath (jobIDOf u1) ≠ workspacePath (jobIDOf u2) ∧
    containerName (jobIDOf u1) ≠ containerName (jobIDOf u2) ∧
    resultPathOf (jobIDOf u1) d1 ≠ resultPathOf (jobIDOf u2) d2 := by
  have hj : jobIDOf u1 ≠ jobIDOf u2 := fun e => h (jobIDOf_inj u1 u2 e)
  refine ⟨hj, ?_, ?_, ?_⟩
  · intro e
    exact hj (append_left_cancel_string _ _ _ e)
  · intro e
    exact hj (append_left_cancel_string _ _ _ e)
  · intro e
    apply hj
    have hd := congrArg String.data e
    simp only [resultPathOf, String.data_append, List.append_assoc,
      List.append_cancel_left_eq] at hd
    have hlen : (jobIDOf u1).data.length = (jobIDOf u2).data.length := by
      have h1 := jobIDOf_length u1
      have h2 := jobIDOf_length u2
      simp only [String.length] at h1 h2
      rw [h1, h2]
    exact String.ext (List.append_inj hd hlen).1

/-- C10, witnessed on the two sample UUIDs and two distros, one with a `/`. -/
theorem C10_names_never_collide_witness :
    sampleUUID ≠ otherUUID ∧
    (jobIDOf sampleUUID ≠ jobIDOf otherUUID ∧
      workspacePath (jobIDOf sampleUUID) ≠ workspacePath (jobIDOf otherUUID) ∧
      containerName (jobIDOf sampleUUID) ≠ containerName (jobIDOf otherUUID) ∧
      resultPathOf (jobIDOf sampleUUID) "noble" ≠ resultPathOf (jobIDOf otherUUID) "a/b") :=
  have hne : sampleUUID ≠ otherUUID := fun e => by
    have hb := congrArg UUID.bytes e
    revert hb
    decide
  ⟨hne, C10_names_never_collide sampleUUID otherUUID "noble" "a/b" hne⟩

/-! ## Per-job names -/

/-- The names a run of `Build` uses, read off its trace. -/
theorem Build_names (w : World) (fs : Files) (req : DebianBuildRequest) :
    workspacePaths (Build w fs req).1 = [workspacePath (jobIDOf w.uuidNew)] ∧
    (∀ n ∈ containerNames (Build w fs req).1, n = containerName (jobIDOf w.uuidNew)) ∧
    (∀ p ∈ resultDirs (Build w fs req).1, p = resultPathOf (jobIDOf w.uuidNew) req.Distro) := by
  simp only [Build, runContainer, emit]
  repeat' split
  all_goals simp [workspacePaths, containerNames, resultDirs]

/-- C6, as stated, fails: two runs under one job ID, for the request of
`cmd/main.go` and for the same request with the distro `jammy`, use the same
workspace path and container name but different result directories. -/
theorem C6_counterexample :
    workspacePaths (Build stubWorld noFiles mainRequest).1 =
      workspacePaths (Build stubWorld noFiles { mainRequest with Distro := "jammy" }).1 ∧
    containerNames (Build stubWorld noFiles mainRequest).1 =
      containerNames (Build stubWorld noFiles { mainRequest with Distro := "jammy" }).1 ∧
    resultDirs (Build stubWorld noFiles mainRequest).1 =
      ["/media/homelab/src/bangun/results/00112233445566778899aabbccddeeff/noble"] ∧
    resultDirs (Build stubWorld noFiles { mainRequest with Distro := "jammy" }).1 =
      ["/media/homelab/src/bangun/results/00112233445566778899aabbccddeeff/jammy"] ∧
    jobTriple (Build stubWorld noFiles mainRequest).1 ≠
      jobTriple (Build stubWorld noFiles { mainRequest with Distro := "jammy" }).1 := by
  decide

/-- C6, amended: two runs of `Build` under the same job ID, whatever the
requests and the collaborators do, use the same workspace path and the same
container name; they use the same result directory when the two requests name
the same distro. -/
theorem C6_names_from_jobID_and_distro (w1 w2 : World) (fs1 fs2 : Files)
    (req1 req2 : DebianBuildRequest) (hid : jobIDOf w1.uuidNew = jobIDOf w2.uuidNew) :
    workspacePaths (Build w1 fs1 req1).1 = workspacePaths (Build w2 fs2 req2).1 ∧
    (∀ n1 ∈ containerNames (Build w1 fs1 req1).1,
      ∀ n2 ∈ containerNames (Build w2 fs2 req2).1, n1 = n2) ∧
    (req1.Distro = req2.Distro →
      ∀ p1 ∈ resultDirs (Build w1 fs1 req1).1,
        ∀ p2 ∈ resultDirs (Build w2 fs2 req2).1, p1 = p2) := by
  obtain ⟨a1, b1, c1⟩ := Build_names w1 fs1 req1
  obtain ⟨a2, b2, c2⟩ := Build_names w2 fs2 req2
  refine ⟨?_, ?_, ?_⟩
  · rw [a1, a2, hid]
  · intro n1 h1 n2 h2
    rw [b1 n1 h1, b2 n2 h2, hid]
  · intro hd p1 h1 p2 h2
    rw [c1 p1 h1, c2 p2 h2, hid, hd]

/-- C6, amended, witnessed on two runs of the stub world for the same distro,
two architectures and two repositories; each run does use a result directory. -/
theorem C6_names_from_jobID_and_distro_witness :
    resultDirs (Build stubWorld noFiles mainRequest).1 =
      ["/media/homelab/src/bangun/results/00112233445566778899aabbccddeeff/noble"] ∧
    (∀ p1 ∈ resultDirs (Build stubWorld noFiles mainRequest).1,
      ∀ p2 ∈ resultDirs (Build startFailsWorld noFiles armRequest).1, p1 = p2) :=
  ⟨by decide,
    (C6_names_from_jobID_and_distro stubWorld startFailsWorld noFiles noFiles mainRequest
      armRequest rfl).2.2 rfl⟩

/-! ## Fetch failure -/

/-- C1: when the clone of `req.GitURL` into the job workspace fails with `e`,
`Build` returns `e` to its caller, and its trace holds no create call and no
call making a directory, starting a container, opening its log stream or
waiting for it; the file system is left as it was. -/
theorem C1_fetch_failure_aborts (w : World) (fs : Files) (req : DebianBuildRequest)
    (e : GoError)
    (hfetch : w.gitPlainClone (workspacePath (jobIDOf w.uuidNew)) req.GitURL = some e) :
    (Build w fs req).2.2 = BuildOutcome.returned { Log := "" } (some e) ∧
    (Build w fs req).1.countP Event.isCreate = 0 ∧
    (Build w fs req).1.countP Event.isMkdirAll = 0 ∧
    (Build w fs req).1.countP Event.isStart = 0 ∧
    (Build w fs req).1.countP Event.isLogs = 0 ∧
    (Build w fs req).1.countP Event.isWait = 0 ∧
    (Build w fs req).2.1 = fs := by
  simp [Build, emit, hfetch, Event.isCreate, Event.isMkdirAll, Event.isStart, Event.isLogs,
    Event.isWait]

/-- C1, witnessed on the stub world with an unreachable repository. -/
theorem C1_fetch_failure_aborts_witness :
    fetchFailsWorld.gitPlainClone (workspacePath (jobIDOf fetchFailsWorld.uuidNew))
        mainRequest.GitURL = some "repository not found" ∧
    (Build fetchFailsWorld noFiles mainRequest).2.2 =
      BuildOutcome.returned { Log := "" } (some "repository not found") ∧
    (Build fetchFailsWorld noFiles mainRequest).1.countP Event.isCreate = 0 :=
  have h := C1_fetch_failure_aborts fetchFailsWorld noFiles mainRequest "repository not found" rfl
  ⟨rfl, h.1, h.2.1⟩

/-! ## The engine's create call -/

/-- No error of `runContainer` reaches the caller of `Build`: an error `Build`
returns is the error of the clone. -/
theorem Build_error_is_fetch_error (w : World) (fs : Files) (req : DebianBuildRequest)
    (res : DebianBuildResult) (e : GoError)
    (h : (Build w fs req).2.2 = BuildOutcome.returned res (some e)) :
    w.gitPlainClone (workspacePath (jobIDOf w.uuidNew)) req.GitURL = some e := by
  simp only [Build, emit] at h
  split at h
  · next err herr =>
    simp only [BuildOutcome.returned.injEq, Option.some.injEq] at h
    rw [herr, h.2]
  · split at h
    · simp at h
    · split at h <;> simp at h

/-- C2, on the code: in the stub world whose engine fails the create call with
`No such image`, `Build` logs that error and returns a nil error; the trace
holds the one create call and no start call. -/
theorem C2_create_error_is_swallowed :
    (Build createFailsWorld noFiles mainRequest).2.2 =
      BuildOutcome.returned { Log := "" } none ∧
    (Build createFailsWorld noFiles mainRequest).1.getLast? =
      some (Event.logPrintlnErr "No such image") ∧
    (Build createFailsWorld noFiles mainRequest).1.countP Event.isCreate = 1 ∧
    (Build createFailsWorld noFiles mainRequest).1.countP Event.isStart = 0 := by
  decide

/-- C4: when the clone, the Docker client and the creation of the result
directory succeed, `Build` issues exactly one create call; its host
configuration has exactly the three bind mounts workspace to `/src`, scripts to
`/scripts` and result directory to `/result`, none read-only, and its command is
`/bin/bash -c "cd /src && /scripts/debian-build.sh"`, the script invocation
being the last argument. -/
theorem C4_environment_spec (w : World) (fs : Files) (req : DebianBuildRequest)
    (hfetch : w.gitPlainClone (workspacePath (jobIDOf w.uuidNew)) req.GitURL = none)
    (hclient : w.newEnvClient = none)
    (hmkdir : w.osMkdirAll (resultPathOf (jobIDOf w.uuidNew) req.Distro) = none) :
    ∃ config hostConfig networkingConfig name,
      (Build w fs req).1.filter Event.isCreate =
        [Event.containerCreate config hostConfig networkingConfig name] ∧
      hostConfig.Mounts =
        [{ Type_ := "bind", Source := "/tmp/bangun/builds/" ++ jobIDOf w.uuidNew,
           Target := "/src", ReadOnly := false },
         { Type_ := "bind", Source := "/media/homelab/src/bangun/scripts",
           Target := "/scripts", ReadOnly := false },
         { Type_ := "bind",
           Source := "/media/homelab/src/bangun/results/" ++ jobIDOf w.uuidNew ++ "/"
             ++ req.Distro,
           Target := "/result", ReadOnly := false }] ∧
      config.Cmd = ["/bin/bash", "-c", "cd /src && /scripts/debian-build.sh"] ∧
      config.Cmd.getLast? = some "cd /src && /scripts/debian-build.sh" := by
  refine ⟨{ Image := "herpiko/pbocker-" ++ req.Distro, Env := ["LISTENINGPORT=" ++ "8080"],
             Hostname := "herpiko/pbocker-" ++ req.Distro ++ "-hostnameexample",
             Cmd := ["/bin/bash", "-c", "cd /src && /scripts/debian-build.sh"] },
           { Privileged := true, RestartPolicy := { Name := "no" },
             LogConfig := { Type_ := "json-file", Config := [] },
             Mounts := [{ Type_ := TypeBind, Source := "/tmp/bangun/builds/" ++ jobIDOf w.uuidNew,
                          Target := "/src", ReadOnly := false },
                        { Type_ := TypeBind, Source := "/media/homelab/src/bangun/scripts",
                          Target := "/scripts", ReadOnly := false },
                        { Type_ := TypeBind,
                          Source := resultPathOf (jobIDOf w.uuidNew) req.Distro,
                          Target := "/result", ReadOnly := false }] },
           { EndpointsConfig := [("bridge", { Gateway := "172.17.0.1" })] },
           containerName (jobIDOf w.uuidNew), ?_, rfl, rfl, rfl⟩
  simp only [Build, runContainer, emit, hfetch, hclient, hmkdir]
  repeat' split
  all_goals simp [Event.isCreate]

/-- C4, witnessed on the stub world and the request of `cmd/main.go`. -/
theorem C4_environment_spec_witness :
    ∃ config hostConfig networkingConfig name,
      (Build stubWorld noFiles mainRequest).1.filter Event.isCreate =
        [Event.containerCreate config hostConfig networkingConfig name] ∧
      hostConfig.Mounts =
        [{ Type_ := "bind", Source := "/tmp/bangun/builds/" ++ jobIDOf stubWorld.uuidNew,
           Target := "/src", ReadOnly := false },
         { Type_ := "bind", Source := "/media/homelab/src/bangun/scripts",
           Target := "/scripts", ReadOnly := false },
         { Type_ := "bind",
           Source := "/media/homelab/src/bangun/results/" ++ jobIDOf stubWorld.uuidNew ++ "/"
             ++ mainRequest.Distro,
           Target := "/result", ReadOnly := false }] ∧
      config.Cmd = ["/bin/bash", "-c", "cd /src && /scripts/debian-build.sh"] ∧
      config.Cmd.getLast? = some "cd /src && /scripts/debian-build.sh" :=
  C4_environment_spec stubWorld noFiles mainRequest rfl rfl rfl

/-! ## Copying the log stream -/

theorem Files.set_same (fs : Files) (path : String) (v : Bytes) : fs.set path v path = some v := by
  simp [Files.set]

/-- When every write is complete, the copy appends the whole stream to the file
and ends as the reader ends. -/
theorem ioCopyLoop_all_written (write : Bytes → Bytes → Nat × Option GoError) (dst : String)
    (final : Option GoError)
    (hwrite : ∀ content chunk, write content chunk = (chunk.length, none)) :
    ∀ (chunks : List Bytes) (fs : Files) (c : Bytes) (n : Nat), fs dst = some c →
      (ioCopyLoop write dst final chunks fs n).1 dst = some (c ++ chunks.flatten) ∧
      (ioCopyLoop write dst final chunks fs n).2.2 = final := by
  intro chunks
  induction chunks with
  | nil => intro fs c n hc; simp [ioCopyLoop, hc]
  | cons buf rest ih =>
    intro fs c n hc
    by_cases hpos : 0 < buf.length
    · have h := ih (fs.set dst (c ++ buf)) (c ++ buf) (n + buf.length) (Files.set_same _ _ _)
      simp only [ioCopyLoop, hpos, hwrite, hc, if_true, Option.getD_some, lt_irrefl,
        decide_False, Bool.false_eq_true, if_false, ne_eq, not_true_eq_false, List.take_length]
      simpa [List.append_assoc] using h
    · have hnil : buf = [] := List.length_eq_zero.mp (by omega)
      have h := ih fs c n hc
      simp only [ioCopyLoop, hpos, if_false]
      simpa [hnil] using h

/-- Whatever the writes and the reader answer, the copy leaves in the file what
it held before followed by a prefix of the stream. -/
theorem ioCopyLoop_prefix (write : Bytes → Bytes → Nat × Option GoError) (dst : String)
    (final : Option GoError) :
    ∀ (chunks : List Bytes) (fs : Files) (c : Bytes) (n : Nat), fs dst = some c →
      ∃ P, P <+: chunks.flatten ∧
        (ioCopyLoop write dst final chunks fs n).1 dst = some (c ++ P) := by
  intro chunks
  induction chunks with
  | nil => intro fs c n hc; exact ⟨[], List.prefix_refl _, by simp [ioCopyLoop, hc]⟩
  | cons buf rest ih =>
    intro fs c n hc
    by_cases hpos : 0 < buf.length
    · rcases hr : write c buf with ⟨nw, ew⟩
      have hstop : (buf.take nw) <+: (buf :: rest).flatten := by
        rw [List.flatten_cons]
        exact (List.take_prefix _ _).trans (List.prefix_append _ _)
      by_cases hbad : buf.length < nw
      · cases ew with
        | none =>
          exact ⟨_, hstop, by simp [ioCopyLoop, hpos, hc, hr, hbad, Files.set]⟩
        | some e =>
          exact ⟨_, hstop, by simp [ioCopyLoop, hpos, hc, hr, hbad, Files.set]⟩
      · cases ew with
        | some e =>
          exact ⟨_, hstop, by simp [ioCopyLoop, hpos, hc, hr, hbad, Files.set]⟩
        | none =>
          by_cases hlen : buf.length = nw
          · obtain ⟨P, hP, hfile⟩ := ih (fs.set dst (c ++ buf)) (c ++ buf) (n + nw)
              (Files.set_same _ _ _)
            refine ⟨buf ++ P, ?_, ?_⟩
            · rw [List.flatten_cons]
              exact (List.prefix_append_right_inj buf).mpr hP
            · subst hlen
              simp [ioCopyLoop, hpos, hc, hr, hfile]
          · exact ⟨_, hstop, by simp [ioCopyLoop, hpos, hc, hr, hbad, hlen, Files.set]⟩
    · have hnil : buf = [] := List.length_eq_zero.mp (by omega)
      obtain ⟨P, hP, hfile⟩ := ih fs c n hc
      refine ⟨P, ?_, ?_⟩
      · simpa [hnil] using hP
      · simp only [ioCopyLoop, hpos, if_false]
        exact hfile

/-- A copy that returns nil has read the stream to its end-of-file, left the
whole of it in the file and counted every byte of it. -/
theorem ioCopyLoop_complete (write : Bytes → Bytes → Nat × Option GoError) (dst : String)
    (final : Option GoError) :
    ∀ (chunks : List Bytes) (fs : Files) (c : Bytes) (n : Nat), fs dst = some c →
      (ioCopyLoop write dst final chunks fs n).2.2 = none →
        final = none ∧
          (ioCopyLoop write dst final chunks fs n).1 dst = some (c ++ chunks.flatten) ∧
          (ioCopyLoop write dst final chunks fs n).2.1 = n + chunks.flatten.length := by
  intro chunks
  induction chunks with
  | nil => intro fs c n hc h; simpa [ioCopyLoop, hc] using h
  | cons buf rest ih =>
    intro fs c n hc h
    by_cases hpos : 0 < buf.length
    · rcases hr : write c buf with ⟨nw, ew⟩
      by_cases hbad : buf.length < nw
      · cases ew <;> simp [ioCopyLoop, hpos, hc, hr, hbad] at h
      · cases ew with
        | some e => simp [ioCopyLoop, hpos, hc, hr, hbad] at h
        | none =>
          by_cases hlen : buf.length = nw
          · subst hlen
            simp only [ioCopyLoop, hpos, hc, hr, if_true, Option.getD_some, lt_irrefl,
              decide_False, Bool.false_eq_true, if_false, ne_eq, not_true_eq_false,
              List.take_length] at h ⊢
            have := ih (fs.set dst (c ++ buf)) (c ++ buf) (n + buf.length)
              (Files.set_same _ _ _) h
            simpa [List.append_assoc, Nat.add_assoc] using this
          · simp [ioCopyLoop, hpos, hc, hr, hbad, hlen] at h
    · have hnil : buf = [] := List.length_eq_zero.mp (by omega)
      simp only [ioCopyLoop, hpos, if_false] at h ⊢
      simpa [hnil] using ih fs c n hc h

/-- The copy in `runContainer`, when it returns nil: the stream ended with
end-of-file, the log file holds all of it and every byte was counted. -/
theorem logCopy_complete (w : World) (fs : Files) (resultPath : String) (rd : LogReader)
    (h : (logCopy w fs resultPath rd).2.2 = none) :
    rd.final = none ∧
      (logCopy w fs resultPath rd).1 (logPathOf w resultPath) = some rd.emitted ∧
      (logCopy w fs resultPath rd).2.1 = rd.emitted.length := by
  have := ioCopyLoop_complete (w.fileWrite (logPathOf w resultPath)) (logPathOf w resultPath)
    rd.final rd.chunks (fs.set (logPathOf w resultPath) []) [] 0 (Files.set_same _ _ _) h
  simpa [logCopy, ioCopy, LogReader.emitted] using this

/-! ## The order of the calls in `runContainer` -/

/-- A trace that splits at a wait call after a wait-free prefix `A` splits at
any wait call only beyond `A`. -/
theorem prefix_of_split {A pre post C : List Event} {x y : Event}
    (hA : ∀ a ∈ A, a.isWait = false) (hy : y.isWait = true)
    (h : A ++ x :: C = pre ++ y :: post) : A <+: pre := by
  induction A generalizing pre with
  | nil => exact List.nil_prefix
  | cons a A ih =>
    cases pre with
    | nil =>
      simp only [List.cons_append, List.nil_append, List.cons.injEq] at h
      have := hA a (List.mem_cons_self _ _)
      rw [h.1, hy] at this
      exact absurd this (by decide)
    | cons p pre =>
      simp only [List.cons_append, List.cons.injEq] at h
      rw [h.1]
      exact (List.cons_prefix_cons).mpr
        ⟨rfl, ih (fun b hb => hA b (List.mem_cons_of_mem _ hb)) h.2⟩

/-- The two shapes of a run of `runContainer`: it returns an error without
having called wait; or the create call gave a container, its log stream was
opened, the copy of that stream into the log file returned nil, and the trace is
the full sequence mkdir, create, start, logs, file creation, copy, wait, print,
close, the file system being the one the copy left. -/
theorem runContainer_shape (w : World) (fs : Files)
    (jobID imagename containername port : String) (inputEnv : List String)
    (resultPath : String) :
    ((∀ ev ∈ (runContainer w fs jobID imagename containername port inputEnv resultPath).1,
        ev.isWait = false) ∧
      (runContainer w fs jobID imagename containername port inputEnv resultPath).2.2 ≠ none) ∨
    ∃ cid rd,
      w.containerCreate (createConfig imagename inputEnv) (createHostConfig jobID resultPath)
        createNetworkingConfig containername = Except.ok cid ∧
      w.containerLogs cid logsOptions = Except.ok rd ∧
      (logCopy w fs resultPath rd).2.2 = none ∧
      (runContainer w fs jobID imagename containername port inputEnv resultPath).2.1 =
        (logCopy w fs resultPath rd).1 ∧
      (runContainer w fs jobID imagename containername port inputEnv resultPath).2.2 = none ∧
      (runContainer w fs jobID imagename containername port inputEnv resultPath).1 =
        [Event.osMkdirAll resultPath,
         Event.containerCreate (createConfig imagename inputEnv)
           (createHostConfig jobID resultPath) createNetworkingConfig containername,
         Event.containerStart cid,
         Event.logPrintf ("Container " ++ cid ++ " is created"),
         Event.containerLogs cid logsOptions,
         Event.osCreate (logPathOf w resultPath),
         Event.ioCopy (logPathOf w resultPath) (logCopy w fs resultPath rd).2.1 none,
         Event.containerWait containername "" (w.containerWait containername "")] ++
        [waitLogged (w.containerWait containername ""),
         Event.fileClose (logPathOf w resultPath)] := by
  cases hmk : w.osMkdirAll resultPath with
  | some e => left; simp [runContainer, emit, hmk, Event.isWait]
  | none =>
    cases hcr : w.containerCreate (createConfig imagename inputEnv)
        (createHostConfig jobID resultPath) createNetworkingConfig containername with
    | error e =>
      left
      simp only [createConfig, createHostConfig, createNetworkingConfig] at hcr
      simp [runContainer, emit, hmk, hcr, Event.isWait]
    | ok cid =>
      cases hlg : w.containerLogs cid logsOptions with
      | error e =>
        left
        simp only [createConfig, createHostConfig, createNetworkingConfig] at hcr
        simp only [logsOptions] at hlg
        simp [runContainer, emit, hmk, hcr, hlg, Event.isWait]
      | ok rd =>
        cases hfl : w.osCreate (logPathOf w resultPath) with
        | some e =>
          left
          simp only [createConfig, createHostConfig, createNetworkingConfig] at hcr
          simp only [logsOptions] at hlg
          simp only [logPathOf] at hfl
          simp [runContainer, emit, hmk, hcr, hlg, hfl, Event.isWait]
        | none =>
          cases hcp : (logCopy w fs resultPath rd).2.2 with
          | some e =>
            left
            simp only [createConfig, createHostConfig, createNetworkingConfig] at hcr
            simp only [logsOptions] at hlg
            simp only [logPathOf] at hfl
            simp only [logCopy, logPathOf] at hcp
            simp [runContainer, emit, hmk, hcr, hlg, hfl, hcp, Event.isWait]
          | none =>
            right
            refine ⟨cid, rd, rfl, hlg, hcp, ?_, ?_, ?_⟩
            all_goals
              simp only [createConfig, createHostConfig, createNetworkingConfig] at hcr
              simp only [logsOptions] at hlg
              simp only [logPathOf] at hfl
              simp only [logCopy, logPathOf] at hcp
              cases hw : w.containerWait containername "" <;>
                simp [runContainer, emit, hmk, hcr, hlg, hfl, hcp, hw, createConfig,
                  createHostConfig, createNetworkingConfig, logsOptions, logPathOf, logCopy,
                  waitLogged]

/-- C7: in every run of `runContainer`, a wait call comes only after the
engine's log stream was opened, the log file created and the copy of that
stream into the log file run until end-of-file, the file holding the whole
stream; and when `runContainer` returns nil, the stream was drained to
end-of-file into the log file, which holds all of it, and the wait call that
follows that copy in the trace has returned. -/
theorem C7_drain_before_wait (w : World) (fs : Files)
    (jobID imagename containername port : String) (inputEnv : List String)
    (resultPath : String) :
    (∀ pre post name cond got,
      (runContainer w fs jobID imagename containername port inputEnv resultPath).1 =
          pre ++ Event.containerWait name cond got :: post →
        ∃ cid rd,
          w.containerLogs cid logsOptions = Except.ok rd ∧
          rd.final = none ∧
          Event.containerLogs cid logsOptions ∈ pre ∧
          Event.osCreate (logPathOf w resultPath) ∈ pre ∧
          Event.ioCopy (logPathOf w resultPath) rd.emitted.length none ∈ pre ∧
          (runContainer w fs jobID imagename containername port inputEnv resultPath).2.1
            (logPathOf w resultPath) = some rd.emitted) ∧
    ((runContainer w fs jobID imagename containername port inputEnv resultPath).2.2 = none →
      ∃ cid rd pre post,
        w.containerLogs cid logsOptions = Except.ok rd ∧
        rd.final = none ∧
        (runContainer w fs jobID imagename containername port inputEnv resultPath).2.1
          (logPathOf w resultPath) = some rd.emitted ∧
        Event.containerLogs cid logsOptions ∈ pre ∧
        (runContainer w fs jobID imagename containername port inputEnv resultPath).1 =
          pre ++ [Event.ioCopy (logPathOf w resultPath) rd.emitted.length none,
            Event.containerWait containername "" (w.containerWait containername "")] ++
            post) := by
  rcases runContainer_shape w fs jobID imagename containername port inputEnv resultPath with
    ⟨hnowait, herr⟩ | ⟨cid, rd, _, hlogs, hcopy, hfiles, _, htrace⟩
  · refine ⟨?_, fun h => absurd h herr⟩
    intro pre post name cond got h
    have hmem : Event.containerWait name cond got ∈
        (runContainer w fs jobID imagename containername port inputEnv resultPath).1 := by
      rw [h]; simp
    have := hnowait _ hmem
    simp [Event.isWait] at this
  · obtain ⟨heof, hfile, hcount⟩ := logCopy_complete w fs resultPath rd hcopy
    rw [hcount] at htrace
    refine ⟨?_, fun _ => ?_⟩
    · intro pre post name cond got h
      rw [htrace] at h
      have hp : [Event.osMkdirAll resultPath,
          Event.containerCreate (createConfig imagename inputEnv)
            (createHostConfig jobID resultPath) createNetworkingConfig containername,
          Event.containerStart cid,
          Event.logPrintf ("Container " ++ cid ++ " is created"),
          Event.containerLogs cid logsOptions,
          Event.osCreate (logPathOf w resultPath),
          Event.ioCopy (logPathOf w resultPath) rd.emitted.length none] <+: pre :=
        prefix_of_split (x := Event.containerWait containername "" (w.containerWait containername ""))
          (C := [waitLogged (w.containerWait containername ""),
            Event.fileClose (logPathOf w resultPath)])
          (by simp [Event.isWait]) (by simp [Event.isWait]) h
      refine ⟨cid, rd, hlogs, heof, hp.subset (by simp), hp.subset (by simp),
        hp.subset (by simp), ?_⟩
      rw [hfiles]; exact hfile
    · refine ⟨cid, rd, [Event.osMkdirAll resultPath,
          Event.containerCreate (createConfig imagename inputEnv)
            (createHostConfig jobID resultPath) createNetworkingConfig containername,
          Event.containerStart cid,
          Event.logPrintf ("Container " ++ cid ++ " is created"),
          Event.containerLogs cid logsOptions,
          Event.osCreate (logPathOf w resultPath)],
        [waitLogged (w.containerWait containername ""),
          Event.fileClose (logPathOf w resultPath)], hlogs, heof, ?_, by simp, htrace⟩
      rw [hfiles]; exact hfile

/-- C7, witnessed on the stub world: the run returns nil, its stream
`"build ok\\n"` is in the log file, and the trace holds the complete copy of
nine bytes right before the wait call. -/
theorem C7_drain_before_wait_witness :
    (sampleRun stubWorld).2.2 = none ∧
    (sampleRun stubWorld).2.1 sampleLogPath = some buildOk ∧
    ∃ cid rd pre post,
        stubWorld.containerLogs cid logsOptions = Except.ok rd ∧
        rd.final = none ∧
        (sampleRun stubWorld).2.1
          (logPathOf stubWorld (resultPathOf (jobIDOf sampleUUID) "noble")) = some rd.emitted ∧
        Event.containerLogs cid logsOptions ∈ pre ∧
        (sampleRun stubWorld).1 =
          pre ++ [Event.ioCopy (logPathOf stubWorld (resultPathOf (jobIDOf sampleUUID) "noble"))
              rd.emitted.length none,
            Event.containerWait (containerName (jobIDOf sampleUUID)) ""
              (stubWorld.containerWait (containerName (jobIDOf sampleUUID)) "")] ++
            post :=
  ⟨by decide, by decide,
    (C7_drain_before_wait stubWorld noFiles (jobIDOf sampleUUID) "herpiko/pbocker-noble"
      (containerName (jobIDOf sampleUUID)) "8080" ["LISTENINGPORT=8080"]
      (resultPathOf (jobIDOf sampleUUID) "noble")).2 (by decide)⟩

/-! ## The engine's start call -/

/-- The answer of the engine's start call never reaches `runContainer`: two
worlds that differ only there run alike. -/
theorem runContainer_ignores_start (w : World) (start : String → Option GoError) (fs : Files)
    (jobID imagename containername port : String) (inputEnv : List String)
    (resultPath : String) :
    runContainer { w with containerStart := start } fs jobID imagename containername port
        inputEnv resultPath =
      runContainer w fs jobID imagename containername port inputEnv resultPath :=
  rfl

/-- C8, on the code: in the stub world whose engine fails the start call,
`runContainer` goes on after the failed start: it opens the log stream, creates
and fills the log file, calls wait, and returns nil. -/
theorem C8_start_error_is_ignored :
    startFailsWorld.containerStart "c0ffee" = some "cannot start container" ∧
    (sampleRun startFailsWorld).2.2 = none ∧
    (sampleRun startFailsWorld).1.drop 2 =
      [Event.containerStart "c0ffee",
       Event.logPrintf "Container c0ffee is created",
       Event.containerLogs "c0ffee" { ShowStdout := true, Follow := true },
       Event.osCreate sampleLogPath,
       Event.ioCopy sampleLogPath 9 none,
       Event.containerWait "bangun-build-00112233445566778899aabbccddeeff" ""
         (WaitOutcome.res { StatusCode := 0, Error := none }),
       Event.logPrintlnRes { StatusCode := 0, Error := none },
       Event.fileClose sampleLogPath] ∧
    (sampleRun startFailsWorld).2.1 sampleLogPath = some buildOk := by
  decide

/-! ## A broken log stream -/

/-- C9, as stated, fails: in the stub world whose log stream breaks after
`"build ok\\n"`, the copy fails after those nine bytes were written and the log
file retains them, but `runContainer` returns the copy error and its trace
holds no wait call. -/
theorem C9_counterexample :
    Event.ioCopy sampleLogPath 9 (some "unexpected EOF") ∈ (sampleRun streamBreaksWorld).1 ∧
    (sampleRun streamBreaksWorld).2.1 sampleLogPath = some buildOk ∧
    (sampleRun streamBreaksWorld).1.countP Event.isWait = 0 ∧
    (sampleRun streamBreaksWorld).2.2 = some "unexpected EOF" := by
  decide

/-- C9, amended: when the directory is made, the create call of this run gives
a container, its log stream is opened, the log file is created and the copy of
the stream into it fails with `e`, then the bytes the copy had written, a prefix
of the stream, are what the log file holds when `runContainer` returns; the
file system is the one the copy left, the file is closed, and `runContainer`
returns `e` without calling wait. -/
theorem C9_stream_error_aborts (w : World) (fs : Files)
    (jobID imagename containername port : String) (inputEnv : List String)
    (resultPath cid : String) (rd : LogReader) (e : GoError)
    (hmkdir : w.osMkdirAll resultPath = none)
    (hcreate : w.containerCreate (createConfig imagename inputEnv)
      (createHostConfig jobID resultPath) createNetworkingConfig containername = Except.ok cid)
    (hlogs : w.containerLogs cid logsOptions = Except.ok rd)
    (hfile : w.osCreate (logPathOf w resultPath) = none)
    (hcopy : (logCopy w fs resultPath rd).2.2 = some e) :
    (∃ P, (logCopy w fs resultPath rd).1 (logPathOf w resultPath) = some P ∧
      P <+: rd.emitted ∧
      (runContainer w fs jobID imagename containername port inputEnv resultPath).2.1
        (logPathOf w resultPath) = some P) ∧
    (runContainer w fs jobID imagename containername port inputEnv resultPath).2.1 =
      (logCopy w fs resultPath rd).1 ∧
    (runContainer w fs jobID imagename containername port inputEnv resultPath).2.2 = some e ∧
    (runContainer w fs jobID imagename containername port inputEnv resultPath).1.countP
      Event.isWait = 0 ∧
    (runContainer w fs jobID imagename containername port inputEnv resultPath).1.getLast? =
      some (Event.fileClose (logPathOf w resultPath)) := by
  obtain ⟨P, hP, hPfile⟩ := ioCopyLoop_prefix (w.fileWrite (logPathOf w resultPath))
    (logPathOf w resultPath) rd.final rd.chunks
    (fs.set (logPathOf w resultPath) []) [] 0 (Files.set_same _ _ _)
  have hPcopy : (logCopy w fs resultPath rd).1 (logPathOf w resultPath) = some P := by
    simpa [logCopy, ioCopy] using hPfile
  have hfiles : (runContainer w fs jobID imagename containername port inputEnv resultPath).2.1 =
      (logCopy w fs resultPath rd).1 := by
    simp only [createConfig, createHostConfig, createNetworkingConfig] at hcreate
    simp only [logsOptions] at hlogs
    simp only [logPathOf] at hfile
    simp only [logCopy, logPathOf] at hcopy
    simp only [runContainer, emit, hmkdir, hcreate, hlogs, hfile, hcopy, logCopy, logPathOf]
  refine ⟨⟨P, hPcopy, hP, ?_⟩, hfiles, ?_, ?_, ?_⟩
  · rw [hfiles]; exact hPcopy
  all_goals
    simp only [createConfig, createHostConfig, createNetworkingConfig] at hcreate
    simp only [logsOptions] at hlogs
    simp only [logPathOf] at hfile
    simp only [logCopy, logPathOf] at hcopy
    simp [runContainer, emit, hmkdir, hcreate, hlogs, hfile, hcopy, logPathOf, Event.isWait]

/-- C9, amended, witnessed on the stub world with the breaking log stream: the
nine bytes written before the break are in the log file at the return. -/
theorem C9_stream_error_aborts_witness :
    (logCopy streamBreaksWorld noFiles (resultPathOf (jobIDOf sampleUUID) "noble")
      { chunks := [buildOk], final := some "unexpected EOF" }).1 sampleLogPath = some buildOk ∧
    ((∃ P, (logCopy streamBreaksWorld noFiles (resultPathOf (jobIDOf sampleUUID) "noble")
          { chunks := [buildOk], final := some "unexpected EOF" }).1
          (logPathOf streamBreaksWorld (resultPathOf (jobIDOf sampleUUID) "noble")) = some P ∧
        P <+: LogReader.emitted { chunks := [buildOk], final := some "unexpected EOF" } ∧
        (sampleRun streamBreaksWorld).2.1
          (logPathOf streamBreaksWorld (resultPathOf (jobIDOf sampleUUID) "noble")) = some P) ∧
      (sampleRun streamBreaksWorld).2.1 =
        (logCopy streamBreaksWorld noFiles (resultPathOf (jobIDOf sampleUUID) "noble")
          { chunks := [buildOk], final := some "unexpected EOF" }).1 ∧
      (sampleRun streamBreaksWorld).2.2 = some "unexpected EOF" ∧
      (sampleRun streamBreaksWorld).1.countP Event.isWait = 0 ∧
      (sampleRun streamBreaksWorld).1.getLast? =
        some (Event.fileClose
          (logPathOf streamBreaksWorld (resultPathOf (jobIDOf sampleUUID) "noble")))) :=
  ⟨by decide,
    C9_stream_error_aborts streamBreaksWorld noFiles (jobIDOf sampleUUID) "herpiko/pbocker-noble"
      (containerName (jobIDOf sampleUUID)) "8080" ["LISTENINGPORT=8080"]
      (resultPathOf (jobIDOf sampleUUID) "noble") "c0ffee"
      { chunks := [buildOk], final := some "unexpected EOF" } "unexpected EOF"
      rfl rfl rfl rfl (by decide)⟩

/-! ## The successful build -/

/-- The log path of a job holds no `%` when the distro holds none. -/
theorem percent_not_mem_logPath (u : UUID) (distro : String) (h : '%' ∉ distro.toList) :
    '%' ∉ (resultPathOf (jobIDOf u) distro ++ "/log.txt").toList := by
  have hj : '%' ∉ (jobIDOf u).data := by
    intro hm
    rw [jobIDOf_data] at hm
    have := hexEncode_mem _ _ hm
    revert this
    decide
  simp only [resultPathOf, String.toList, String.data_append, List.mem_append, not_or]
  exact ⟨⟨⟨⟨by decide, hj⟩, by decide⟩, h⟩, by decide⟩

/-- C3, as stated, fails: in the stub world every step succeeds and the log
stream emits `"build ok\\n"`; `Build` returns no error, but the `Log` of its
result is the empty string, which names no file, while the stream is in
`log.txt` under the result directory. -/
theorem C3_counterexample :
    (Build stubWorld noFiles mainRequest).2.2 = BuildOutcome.returned { Log := "" } none ∧
    (Build stubWorld noFiles mainRequest).2.1 "" = none ∧
    (Build stubWorld noFiles mainRequest).2.1 sampleLogPath = some buildOk ∧
    sampleLogPath = resultPathOf (jobIDOf stubWorld.uuidNew) mainRequest.Distro ++ "/log.txt" := by
  decide

/-- C3, amended: when the clone, the Docker client, the result directory, the
create call of this build, the start of its container, the opening of its log
stream, the creation of the log file, the copy of the stream into it and the
wait succeed, for a distro without `%`, `Build` returns no error and the file
`log.txt` under the result directory holds exactly the bytes the stream emitted. -/
theorem C3_log_file_holds_stream (w : World) (fs : Files) (req : DebianBuildRequest)
    (cid : String) (rd : LogReader) (exit : WaitResponse)
    (hfetch : w.gitPlainClone (workspacePath (jobIDOf w.uuidNew)) req.GitURL = none)
    (hclient : w.newEnvClient = none)
    (hmkdir : w.osMkdirAll (resultPathOf (jobIDOf w.uuidNew) req.Distro) = none)
    (hcreate : w.containerCreate
      (createConfig ("herpiko/pbocker-" ++ req.Distro) ["LISTENINGPORT=8080"])
      (createHostConfig (jobIDOf w.uuidNew) (resultPathOf (jobIDOf w.uuidNew) req.Distro))
      createNetworkingConfig (containerName (jobIDOf w.uuidNew)) = Except.ok cid)
    (hstart : w.containerStart cid = none)
    (hlogs : w.containerLogs cid logsOptions = Except.ok rd)
    (hverbatim : ∀ format : String, '%' ∉ format.toList → w.Sprintf format = format)
    (hdistro : '%' ∉ req.Distro.toList)
    (hfile : w.osCreate (resultPathOf (jobIDOf w.uuidNew) req.Distro ++ "/log.txt") = none)
    (hcopy : (logCopy w fs (resultPathOf (jobIDOf w.uuidNew) req.Distro) rd).2.2 = none)
    (hwait : w.containerWait (containerName (jobIDOf w.uuidNew)) "" = WaitOutcome.res exit) :
    (∃ res, (Build w fs req).2.2 = BuildOutcome.returned res none) ∧
    (Build w fs req).2.1 (resultPathOf (jobIDOf w.uuidNew) req.Distro ++ "/log.txt") =
      some rd.emitted := by
  -- the scenario includes a successful start; the code never consults its answer
  have _hstarted := hstart
  have hlp : logPathOf w (resultPathOf (jobIDOf w.uuidNew) req.Distro) =
      resultPathOf (jobIDOf w.uuidNew) req.Distro ++ "/log.txt" :=
    hverbatim _ (percent_not_mem_logPath w.uuidNew req.Distro hdistro)
  obtain ⟨_, hdata, _⟩ :=
    logCopy_complete w fs (resultPathOf (jobIDOf w.uuidNew) req.Distro) rd hcopy
  rw [hlp] at hdata
  simp only [createConfig, createHostConfig, createNetworkingConfig] at hcreate
  simp only [logsOptions] at hlogs
  simp only [logCopy, hlp] at hcopy hdata
  simp only [logPathOf] at hlp
  refine ⟨⟨{ Log := "" }, ?_⟩, ?_⟩ <;>
    simp [Build, runContainer, emit, hfetch, hclient, hmkdir, hcreate, hlogs, hlp, hfile,
      hcopy, hwait, hdata]

/-- C3, amended, witnessed on the stub world and the request of `cmd/main.go`,
whose stream is `"build ok\\n"`. -/
theorem C3_log_file_holds_stream_witness :
    (∃ res, (Build stubWorld noFiles mainRequest).2.2 = BuildOutcome.returned res none) ∧
    (Build stubWorld noFiles mainRequest).2.1
        (resultPathOf (jobIDOf stubWorld.uuidNew) mainRequest.Distro ++ "/log.txt") =
      some (LogReader.emitted { chunks := [buildOk], final := none }) :=
  C3_log_file_holds_stream stubWorld noFiles mainRequest "c0ffee"
    { chunks := [buildOk], final := none } { StatusCode := 0, Error := none }
    rfl rfl rfl rfl rfl rfl (fun _ _ => rfl) (by decide) rfl (by decide) rfl

/-- Why the distro must hold no `%`: for the distro `%d` the path handed to
`os.Create` is the formatted text, not `log.txt` under the result directory;
the file cannot be created, no log is kept and `Build` still returns nil. -/
theorem Build_percent_distro_keeps_no_log :
    Event.osCreate
        "/media/homelab/src/bangun/results/00112233445566778899aabbccddeeff/%!d(MISSING)/log.txt" ∈
      (Build percentWorld noFiles percentRequest).1 ∧
    (Build percentWorld noFiles percentRequest).2.1
      (resultPathOf (jobIDOf percentWorld.uuidNew) percentRequest.Distro ++ "/log.txt") = none ∧
    (Build percentWorld noFiles percentRequest).1.countP Event.isCopy = 0 ∧
    (Build percentWorld noFiles percentRequest).2.2 =
      BuildOutcome.returned { Log := "" } none := by
  decide

end Bangun
